import Mathlib

/-!
Verification of the agent orchestration core of the hachimi voice-assistant
repository: a shallow embedding in Lean 4 of

* `llm_mcp_host/context_manager.py` (`ContextManager`: timestamped message
  store with turn/time based eviction and optional summarization),
* `llm_mcp_host/tool_selector.py` (`ToolSelector`: lexical tool ranking),
* `llm_mcp_host/vector_tool_selector.py` (`VectorToolSelector`: embedding
  based ranking with lexical fallback),
* `llm_mcp_host_refactor/mcp_manager.py` (`MCPServerManager`: multi-server
  tool registry, collision resolution, dispatch),
* `llm_mcp_host/agent.py` (`MCPVoiceAgent.chat` / `_process_llm_turn`),

together with theorems settling the documented behavioural claims.

Modelling conventions:
* Python wall-clock timestamps (`time.time()`, a float) are modelled as `Int`;
  only order and differences of timestamps are ever used by the code.
* Network collaborators (LLM completion, embedding endpoint, MCP sessions,
  JSON argument parsing) are modelled as explicit oracles / outcome values
  passed to the embedded functions, mirroring exactly how the code branches
  on their results.
* Floating-point cosine-similarity arithmetic (`math.sqrt`, `np.dot`) is
  abstracted as an arbitrary rational-valued similarity function parameter;
  every ranking property proved below holds for all such functions, so the
  float arithmetic never needs to be fixed.
* Python `str` operations are re-implemented over `List Char` so that all
  definitions evaluate by kernel reduction; the ASCII fragment relevant to
  the code is modelled exactly (Python's `\w`, `str.lower`, `str.strip` are
  additionally unicode-aware, which none of the claims depend on).
-/

namespace Hachimi

/-! ## Python string primitives -/

/-- Lowercasing of a single character as Python `str.lower` acts on ASCII. -/
def lowerChar (c : Char) : Char :=
  if 65 ≤ c.toNat ∧ c.toNat ≤ 90 then Char.ofNat (c.toNat + 32) else c

/-- Python `s.lower()`. -/
def pyLower (s : String) : String := String.mk (s.data.map lowerChar)

/-- Whitespace characters recognised by Python `str.split()` / `str.strip()`
and by the regex class `\s` (ASCII fragment). -/
def pySpaceChar (c : Char) : Bool :=
  c = ' ' || c = '\t' || c = '\n' || c = '\r' || c = '\x0b' || c = '\x0c'

/-- Python `s.startswith(p)`. -/
def strStarts (s p : String) : Bool := p.data.isPrefixOf s.data

/-- Helper for substring containment over character lists. -/
def strContainsAux (needle : List Char) : List Char → Bool
  | [] => needle.isEmpty
  | c :: t => needle.isPrefixOf (c :: t) || strContainsAux needle t

/-- Python `needle in hay` on strings (substring containment). -/
def pyContains (needle hay : String) : Bool := strContainsAux needle.data hay.data

/-- Python `s.strip()`: drop leading and trailing whitespace. -/
def pyStrip (s : String) : String :=
  String.mk (((s.data.dropWhile pySpaceChar).reverse.dropWhile pySpaceChar).reverse)

/-- Python `s[:n]` (also `s.strip()`-free truncation used by the summarizer):
take the first `n` characters. -/
def pyTake (s : String) (n : Nat) : String := String.mk (s.data.take n)

/-- Python `len(s)`: number of characters. -/
def pyLen (s : String) : Nat := s.data.length

/-- Python `sep.join(parts)`. -/
def joinSep (sep : String) : List String → String
  | [] => ""
  | [x] => x
  | x :: y :: t => x ++ sep ++ joinSep sep (y :: t)

/-- Helper for whitespace splitting: accumulates the current word reversed. -/
def wordsAux (p : Char → Bool) : List Char → List Char → List String
  | [], cur => if cur.isEmpty then [] else [String.mk cur.reverse]
  | c :: rest, cur =>
    if p c then
      if cur.isEmpty then wordsAux p rest []
      else String.mk cur.reverse :: wordsAux p rest []
    else wordsAux p rest (c :: cur)

/-- Python `s.split()` with no argument: split on whitespace runs, dropping
empty pieces. -/
def pySplitWs (s : String) : List String := wordsAux pySpaceChar s.data []

/-! ## ContextManager (`llm_mcp_host/context_manager.py`)

`TimestampedMessage` and the `ContextManager` state.  A chat message is a
role, an optional content string (`None` in Python is `none` here) and an
optional `tool_call_id`. -/

structure Message where
  role : String
  content : Option String
  tool_call_id : Option String := none
deriving Repr, DecidableEq

structure TimestampedMessage where
  message : Message
  timestamp : Int
  turn_count : Nat
deriving Repr, DecidableEq

/-- Constructor parameters of `ContextManager`.  `openai_client` is the LLM
summarization collaborator, modelled as an oracle from the full prompt to the
(stripped-later) completion text; `none` mirrors a missing client. -/
structure CMConfig where
  max_turns : Nat
  max_time_seconds : Int
  enable_summarization : Bool
  summary_role : String
  max_summary_tokens : Nat
  summary_prompt : String
  openai_client : Option (String → String)

structure CMState where
  messages : List TimestampedMessage
  current_turn : Nat
deriving Repr, DecidableEq

/-- The fixed recognizable prefix put in front of every generated summary. -/
def summaryTag : String := "历史对话摘要："

/-- `ContextManager._is_summary_message`: content is a string starting with
the summary tag (a `None` content fails the `isinstance` check). -/
def isSummaryMessage (m : TimestampedMessage) : Bool :=
  match m.message.content with
  | some s => strStarts s summaryTag
  | none => false

/-- One line of `ContextManager._generate_fallback_summary`: messages with
falsy (missing or empty) content are skipped, kept content is truncated to
100 characters with an ellipsis. -/
def fallbackSummaryPart (m : TimestampedMessage) : Option String :=
  match m.message.content with
  | none => none
  | some c =>
    if c = "" then none
    else some (m.message.role ++ ": " ++
      (pyTake c 100 ++ if 100 < pyLen c then "..." else ""))

/-- `ContextManager._generate_fallback_summary`. -/
def generateFallbackSummary (msgs : List TimestampedMessage) : String :=
  joinSep "；" (msgs.filterMap fallbackSummaryPart)

/-- One `"role: content"` line of the conversation history assembled by
`ContextManager._generate_summary`; falsy content is skipped. -/
def historyLine (m : TimestampedMessage) : Option String :=
  match m.message.content with
  | none => none
  | some c => if c = "" then none else some (m.message.role ++ ": " ++ c)

/-- `ContextManager._generate_summary` (together with
`_generate_summary_with_llm`): empty input list yields `""`; with no LLM
client the fallback summarizer is used; otherwise the assembled prompt is
sent to the client, the response is stripped and defensively truncated to
`4 * max_summary_tokens` characters. -/
def generateSummary (cfg : CMConfig) (msgs : List TimestampedMessage) : String :=
  if msgs.isEmpty then ""
  else
    match cfg.openai_client with
    | none => generateFallbackSummary msgs
    | some llm =>
      let history := msgs.filterMap historyLine
      if history.isEmpty then ""
      else
        let full := joinSep "\n" history
        let prompt := cfg.summary_prompt.replace "{max_tokens}"
          (toString cfg.max_summary_tokens)
        let summary := pyStrip (llm (prompt ++ "\n\n" ++ full))
        if cfg.max_summary_tokens * 4 < pyLen summary then
          pyTake summary (cfg.max_summary_tokens * 4) ++ "..."
        else summary

/-- The split of the stored list into the leading system (base) message, if
any, and the remaining messages, as done at the top of
`ContextManager._cleanup`. -/
def splitBase (msgs : List TimestampedMessage) :
    Option TimestampedMessage × List TimestampedMessage :=
  match msgs with
  | [] => (none, [])
  | m :: rest =>
    if m.message.role = "system" then (some m, rest) else (none, m :: rest)

/-- The set of turn indices considered recent by `_cleanup` (the code builds
a Python `set` by iterating the non-base messages in reverse; only membership
is ever used, so a list of the qualifying turn counts is an exact model). -/
def recentTurns (cfg : CMConfig) (current_turn : Nat)
    (other : List TimestampedMessage) : List Nat :=
  (other.filter (fun m =>
    decide ((m.turn_count : Int) > (current_turn : Int) - (cfg.max_turns : Int)))).map
    (fun m => m.turn_count)

/-- The `time_valid` test of `_cleanup`. -/
def timeValid (cfg : CMConfig) (now : Int) (m : TimestampedMessage) : Bool :=
  decide (now - m.timestamp ≤ cfg.max_time_seconds)

/-- The `turn_valid` test of `_cleanup`. -/
def turnValid (cfg : CMConfig) (current_turn : Nat)
    (other : List TimestampedMessage) (m : TimestampedMessage) : Bool :=
  decide (m.turn_count ∈ recentTurns cfg current_turn other)

/-- `messages_to_keep` of `_cleanup` before summary insertion: summary
messages are skipped by the partition loop, the rest must pass both validity
tests; the code then re-filters summaries out a second time (a no-op kept
here for faithfulness). -/
def cmKeep (cfg : CMConfig) (st : CMState) (now : Int) : List TimestampedMessage :=
  let other := (splitBase st.messages).2
  ((other.filter (fun m =>
      !isSummaryMessage m && (timeValid cfg now m && turnValid cfg st.current_turn other m))).filter
    (fun m => !isSummaryMessage m))

/-- `messages_to_process` of `_cleanup`: non-summary messages failing at
least one of the two validity tests. -/
def cmProcess (cfg : CMConfig) (st : CMState) (now : Int) : List TimestampedMessage :=
  let other := (splitBase st.messages).2
  other.filter (fun m =>
    !isSummaryMessage m && !(timeValid cfg now m && turnValid cfg st.current_turn other m))

/-- The `non_summary_messages` actually handed to the summarizer. -/
def summarizeInput (cfg : CMConfig) (st : CMState) (now : Int) : List TimestampedMessage :=
  (cmProcess cfg st now).filter (fun m => !isSummaryMessage m)

/-- The summary message built by `_cleanup`; its timestamp is the cleanup
time and its turn count is 0. -/
def mkSummaryTM (cfg : CMConfig) (text : String) (now : Int) : TimestampedMessage :=
  { message := { role := cfg.summary_role, content := some (summaryTag ++ text) },
    timestamp := now, turn_count := 0 }

/-- The non-base part of the reassembled store: `messages_to_keep` with the
freshly generated summary message prepended when summarization is enabled,
something was evicted, and the generated text is non-empty. -/
def cleanupKeep2 (cfg : CMConfig) (st : CMState) (now : Int) : List TimestampedMessage :=
  if !(cmProcess cfg st now).isEmpty && cfg.enable_summarization then
    if !(summarizeInput cfg st now).isEmpty then
      if generateSummary cfg (summarizeInput cfg st now) != "" then
        mkSummaryTM cfg (generateSummary cfg (summarizeInput cfg st now)) now ::
          cmKeep cfg st now
      else cmKeep cfg st now
    else cmKeep cfg st now
  else cmKeep cfg st now

/-- `ContextManager._cleanup`: a store with at most one message is left
untouched; otherwise the store becomes base (if any) followed by the
summary-extended keep list. -/
def cleanup (cfg : CMConfig) (st : CMState) (now : Int) : CMState :=
  if st.messages.length ≤ 1 then st
  else { st with
    messages := ((splitBase st.messages).1).toList ++ cleanupKeep2 cfg st now }

/-- `ContextManager.add_message`: a system message replaces/creates the base
at position 0 with turn 0; a `"user"` message advances the turn counter;
every appended message is stamped with the current time and turn; cleanup
runs after every append. -/
def addMessage (cfg : CMConfig) (st : CMState) (msg : Message)
    (is_system : Bool) (now : Int) : CMState :=
  let st1 :=
    if is_system then
      let tm : TimestampedMessage := ⟨msg, now, 0⟩
      match st.messages with
      | m :: rest =>
        if m.message.role = "system" then { st with messages := tm :: rest }
        else { st with messages := tm :: m :: rest }
      | [] => { st with messages := [tm] }
    else
      let newTurn := if msg.role = "user" then st.current_turn + 1 else st.current_turn
      { messages := st.messages ++ [⟨msg, now, newTurn⟩], current_turn := newTurn }
  cleanup cfg st1 now

/-! ## Supporting lemmas about `_cleanup` -/

theorem strStarts_append (p t : String) : strStarts (p ++ t) p = true := by
  simp [strStarts, List.isPrefixOf_iff_prefix]

theorem isSummaryMessage_mkSummaryTM (cfg : CMConfig) (text : String) (now : Int) :
    isSummaryMessage (mkSummaryTM cfg text now) = true := by
  simp [isSummaryMessage, mkSummaryTM, strStarts_append]

theorem splitBase_fst_role {msgs : List TimestampedMessage} {b : TimestampedMessage}
    (h : (splitBase msgs).1 = some b) : b.message.role = "system" := by
  match msgs with
  | [] => simp [splitBase] at h
  | m :: rest =>
    by_cases hr : m.message.role = "system"
    · simp [splitBase, hr] at h
      rw [← h]; exact hr
    · simp [splitBase, hr] at h

theorem splitBase_snd_subset {l : List TimestampedMessage} {m : TimestampedMessage}
    (hm : m ∈ (splitBase l).2) : m ∈ l := by
  match l with
  | [] => simp [splitBase] at hm
  | x :: rest =>
    by_cases hr : x.message.role = "system"
    · simp [splitBase, hr] at hm
      exact List.mem_cons_of_mem x hm
    · simpa [splitBase, hr] using hm

theorem mem_splitBase_snd_append {base : Option TimestampedMessage}
    (hrole : ∀ b, base = some b → b.message.role = "system")
    {l : List TimestampedMessage} {m : TimestampedMessage}
    (hm : m ∈ (splitBase (base.toList ++ l)).2) : m ∈ l := by
  cases base with
  | none => exact splitBase_snd_subset (by simpa using hm)
  | some b =>
    have hb := hrole b rfl
    simp only [Option.toList, List.cons_append, List.nil_append] at hm
    simpa [splitBase, hb] using hm

theorem mem_cleanupKeep2 {cfg : CMConfig} {st : CMState} {now : Int}
    {m : TimestampedMessage} (hm : m ∈ cleanupKeep2 cfg st now) :
    m ∈ cmKeep cfg st now ∨
      (m = mkSummaryTM cfg (generateSummary cfg (summarizeInput cfg st now)) now ∧
       cfg.enable_summarization = true) := by
  unfold cleanupKeep2 at hm
  split at hm
  case isTrue h =>
    simp only [Bool.and_eq_true] at h
    split at hm
    · split at hm
      · rcases List.mem_cons.mp hm with h1 | h1
        · exact Or.inr ⟨h1, h.2⟩
        · exact Or.inl h1
      · exact Or.inl hm
    · exact Or.inl hm
  case isFalse h => exact Or.inl hm

theorem mem_cmKeep {cfg : CMConfig} {st : CMState} {now : Int}
    {m : TimestampedMessage} (hm : m ∈ cmKeep cfg st now) :
    isSummaryMessage m = false ∧
    now - m.timestamp ≤ cfg.max_time_seconds ∧
    (st.current_turn : Int) - (cfg.max_turns : Int) < (m.turn_count : Int) := by
  unfold cmKeep at hm
  rw [List.mem_filter] at hm
  obtain ⟨hm1, _⟩ := hm
  rw [List.mem_filter] at hm1
  obtain ⟨_, hp⟩ := hm1
  simp only [timeValid, turnValid, Bool.and_eq_true, Bool.not_eq_true',
    decide_eq_true_eq] at hp
  obtain ⟨hsum, htime, hturn⟩ := hp
  refine ⟨hsum, htime, ?_⟩
  simp only [recentTurns, List.mem_map, List.mem_filter, decide_eq_true_eq] at hturn
  obtain ⟨x, ⟨_, hxgt⟩, hxeq⟩ := hturn
  omega

theorem summarizeInput_eq (cfg : CMConfig) (st : CMState) (now : Int) :
    summarizeInput cfg st now = cmProcess cfg st now := by
  unfold summarizeInput
  rw [List.filter_eq_self]
  intro a ha
  unfold cmProcess at ha
  rw [List.mem_filter] at ha
  have h2 := ha.2
  simp only [Bool.and_eq_true] at h2
  exact h2.1

/-! ## Claim C1 -/

/-- C1, amended: after a cleanup pass over a store holding more than one
message, every surviving non-base message other than the summary message
freshly inserted by that same pass satisfies both retention conditions:
its age is at most `max_time_seconds` and its turn index is strictly greater
than `current_turn - max_turns` (the two filters combine with AND). -/
theorem cleanup_retention (cfg : CMConfig) (st : CMState) (now : Int)
    (h : 1 < st.messages.length) :
    ∀ m ∈ (splitBase (cleanup cfg st now).messages).2,
      isSummaryMessage m = false →
        now - m.timestamp ≤ cfg.max_time_seconds ∧
        (st.current_turn : Int) - (cfg.max_turns : Int) < (m.turn_count : Int) := by
  intro m hm hns
  simp only [cleanup, if_neg (show ¬ st.messages.length ≤ 1 by omega)] at hm
  have hm' : m ∈ cleanupKeep2 cfg st now :=
    mem_splitBase_snd_append (fun b hb => splitBase_fst_role hb) hm
  rcases mem_cleanupKeep2 hm' with hk | ⟨heq, _⟩
  · exact (mem_cmKeep hk).2
  · rw [heq, isSummaryMessage_mkSummaryTM] at hns
    cases hns

def cfgW1 : CMConfig :=
  ⟨3, 1800, false, "user", 200,
   "请用中文简洁总结以下对话历史，保留关键信息，总结长度不超过{max_tokens}个token：", none⟩

def stW1 : CMState :=
  ⟨[⟨⟨"user", some "hi", none⟩, 0, 1⟩, ⟨⟨"assistant", some "yo", none⟩, 1, 1⟩], 1⟩

theorem cleanup_retention_witness :
    1 < stW1.messages.length ∧
    (∀ m ∈ (splitBase (cleanup cfgW1 stW1 2).messages).2,
      isSummaryMessage m = false →
        2 - m.timestamp ≤ cfgW1.max_time_seconds ∧
        (stW1.current_turn : Int) - (cfgW1.max_turns : Int) < (m.turn_count : Int)) :=
  ⟨by decide, cleanup_retention cfgW1 stW1 2 (by decide)⟩

def cfgA : CMConfig :=
  ⟨1, 1800, true, "user", 200,
   "请用中文简洁总结以下对话历史，保留关键信息，总结长度不超过{max_tokens}个token：", none⟩

def stA : CMState :=
  ⟨[⟨⟨"user", some "hello", none⟩, 0, 1⟩, ⟨⟨"user", some "again", none⟩, 10, 2⟩], 2⟩

/-- C1, counterexample to the claim as stated: with summarization enabled,
the cleanup pass that evicts the turn-1 message inserts a summary message
with `turn_index = 0`, and `0 > current_turn - max_turns = 1` fails, so not
every surviving non-base message satisfies both retention conditions. -/
theorem cleanup_retention_cx :
    ¬ (∀ m ∈ (splitBase (cleanup cfgA stA 10).messages).2,
        10 - m.timestamp ≤ cfgA.max_time_seconds ∧
        (stA.current_turn : Int) - (cfgA.max_turns : Int) < (m.turn_count : Int)) := by
  decide

/-! ## Claim C2 -/

/-- C2, amended: for every cleanup pass over a store holding more than one
message, with summarization enabled, at least one evicted message, and a
non-empty generated summary text, exactly one summary message is produced:
the rebuilt store is the base message (if any) followed by the fresh summary
message followed by the kept messages (which contain no summary message);
the summary carries `turn_index = 0` and the recognizable prefix, and no
message carrying that prefix is ever part of later summarization input. -/
theorem cleanup_summary (cfg : CMConfig) (st : CMState) (now : Int)
    (hlen : 1 < st.messages.length)
    (hen : cfg.enable_summarization = true)
    (hev : cmProcess cfg st now ≠ [])
    (htext : generateSummary cfg (summarizeInput cfg st now) ≠ "") :
    (cleanup cfg st now).messages =
      ((splitBase st.messages).1).toList ++
        mkSummaryTM cfg (generateSummary cfg (summarizeInput cfg st now)) now ::
          cmKeep cfg st now ∧
    isSummaryMessage
      (mkSummaryTM cfg (generateSummary cfg (summarizeInput cfg st now)) now) = true ∧
    (mkSummaryTM cfg (generateSummary cfg (summarizeInput cfg st now)) now).turn_count = 0 ∧
    (∀ m ∈ cmKeep cfg st now, isSummaryMessage m = false) ∧
    (∀ cfg2 st2 now2, ∀ m ∈ summarizeInput cfg2 st2 now2,
      isSummaryMessage m = false) := by
  have hne : (cmProcess cfg st now).isEmpty = false := by
    cases hc : cmProcess cfg st now with
    | nil => exact absurd hc hev
    | cons a t => simp
  refine ⟨?_, isSummaryMessage_mkSummaryTM cfg _ now, rfl, ?_, ?_⟩
  · simp only [cleanup, if_neg (show ¬ st.messages.length ≤ 1 by omega)]
    unfold cleanupKeep2
    rw [if_pos (by simp [hne, hen]),
      if_pos (by simp [summarizeInput_eq, hne]),
      if_pos (bne_iff_ne.mpr htext)]
  · intro m hm
    exact (mem_cmKeep hm).1
  · intro cfg2 st2 now2 m hm
    unfold summarizeInput at hm
    rw [List.mem_filter] at hm
    simpa using hm.2

def cfgW2 : CMConfig :=
  ⟨1, 1800, true, "user", 200,
   "请用中文简洁总结以下对话历史，保留关键信息，总结长度不超过{max_tokens}个token：", none⟩

def stW2 : CMState :=
  ⟨[⟨⟨"user", some "把灯打开", none⟩, 0, 1⟩, ⟨⟨"user", some "好的", none⟩, 10, 2⟩], 2⟩

theorem cleanup_summary_witness :
    (cleanup cfgW2 stW2 10).messages =
      ((splitBase stW2.messages).1).toList ++
        mkSummaryTM cfgW2 (generateSummary cfgW2 (summarizeInput cfgW2 stW2 10)) 10 ::
          cmKeep cfgW2 stW2 10 :=
  (cleanup_summary cfgW2 stW2 10 (by decide) (by decide) (by decide) (by decide)).1

def cfgB : CMConfig :=
  ⟨1, 1800, true, "user", 200,
   "请用中文简洁总结以下对话历史，保留关键信息，总结长度不超过{max_tokens}个token：", none⟩

def stB : CMState :=
  ⟨[⟨⟨"assistant", some "", none⟩, 0, 1⟩, ⟨⟨"user", some "ok", none⟩, 10, 2⟩], 2⟩

/-- C2, counterexample to the claim as stated: summarization is enabled and
the cleanup pass evicts one message, but the evicted message has empty
content, so the fallback summarizer returns the empty string and no summary
message at all is produced. -/
theorem cleanup_summary_cx :
    cfgB.enable_summarization = true ∧
    cmProcess cfgB stB 10 ≠ [] ∧
    ((cleanup cfgB stB 10).messages.filter (fun m => isSummaryMessage m)).length = 0 := by
  decide

/-! ## Claim C10 -/

/-- C10, amended: after a cleanup pass over a store holding more than one
message, every non-base message of the result that carries the summary
prefix is the summary message freshly generated by that very pass (which in
particular requires summarization to be enabled); a previously stored
non-base summary message is never carried forward as a kept message,
regardless of its age or turn. -/
theorem cleanup_drops_summaries (cfg : CMConfig) (st : CMState) (now : Int)
    (h : 1 < st.messages.length) :
    ∀ m ∈ (splitBase (cleanup cfg st now).messages).2,
      isSummaryMessage m = true →
        cfg.enable_summarization = true ∧
        m = mkSummaryTM cfg (generateSummary cfg (summarizeInput cfg st now)) now := by
  intro m hm hs
  simp only [cleanup, if_neg (show ¬ st.messages.length ≤ 1 by omega)] at hm
  have hm' : m ∈ cleanupKeep2 cfg st now :=
    mem_splitBase_snd_append (fun b hb => splitBase_fst_role hb) hm
  rcases mem_cleanupKeep2 hm' with hk | ⟨heq, hen⟩
  · rw [(mem_cmKeep hk).1] at hs
    cases hs
  · exact ⟨hen, heq⟩

def cfgW10 : CMConfig :=
  ⟨1, 1800, true, "assistant", 150,
   "请用中文简洁总结以下对话历史，保留关键信息，总结长度不超过{max_tokens}个token：", none⟩

def stW10 : CMState :=
  ⟨[⟨⟨"user", some "历史对话摘要：旧的摘要内容", none⟩, 0, 0⟩,
    ⟨⟨"user", some "新问题", none⟩, 9, 2⟩], 2⟩

theorem cleanup_drops_summaries_witness :
    1 < stW10.messages.length ∧
    (∀ m ∈ (splitBase (cleanup cfgW10 stW10 9).messages).2,
      isSummaryMessage m = true →
        cfgW10.enable_summarization = true ∧
        m = mkSummaryTM cfgW10
          (generateSummary cfgW10 (summarizeInput cfgW10 stW10 9)) 9) :=
  ⟨by decide, cleanup_drops_summaries cfgW10 stW10 9 (by decide)⟩

def sysMsgC : TimestampedMessage := ⟨⟨"system", some "历史对话摘要：旧摘要", none⟩, 0, 0⟩

def cfgC : CMConfig :=
  ⟨3, 1800, false, "user", 200,
   "请用中文简洁总结以下对话历史，保留关键信息，总结长度不超过{max_tokens}个token：", none⟩

def stC : CMState := ⟨[sysMsgC, ⟨⟨"user", some "hi", none⟩, 5, 1⟩], 1⟩

/-- C10, counterexample to the claim as stated: a base (system) message
whose content carries the summary prefix — reachable by constructing the
manager with such a `system_prompt` — was present before the append, the
post-append store holds more than one message, no fresh summary is generated
(summarization is disabled), and yet the message survives cleanup. -/
theorem summary_carryover_cx :
    1 < (addMessage cfgC stC ⟨"user", some "x", none⟩ false 6).messages.length ∧
    sysMsgC ∈ stC.messages ∧
    isSummaryMessage sysMsgC = true ∧
    sysMsgC ∈ (addMessage cfgC stC ⟨"user", some "x", none⟩ false 6).messages ∧
    cfgC.enable_summarization = false := by
  decide

/-! ## ToolSelector (`llm_mcp_host/tool_selector.py`)

`ToolInfo` carries the unique identifier, the original tool name, the owning
server, the description and the (uninterpreted) parameter schema payload;
the `metadata` dictionary of the Python dataclass holds only a provider-type
string and an opaque handle to the raw tool object, neither of which any
verified claim inspects. -/

structure ToolInfo where
  name : String
  original_name : String
  server_name : String
  description : String
  parameters : String
deriving Repr, DecidableEq

/-- A character matched by the regex class `\w` (ASCII fragment). -/
def wordChar (c : Char) : Bool := c.isAlphanum || c = '_'

/-- The stop-word set of `ToolSelector._tokenize`. -/
def stopWords : List String :=
  ["the", "a", "an", "and", "or", "but", "in", "on", "at", "to", "for", "of",
   "with", "by"]

/-- `ToolSelector._tokenize`: replace every character that is neither a word
character nor whitespace by a space (the `re.sub(r'[^\w\s]', ' ', text)`
step), split on whitespace, and drop stop words.  Call sites lowercase the
text before tokenizing. -/
def tokenize (text : String) : List String :=
  (pySplitWs (String.mk (text.data.map
      (fun c => if !wordChar c && !pySpaceChar c then ' ' else c)))).filter
    (fun w => !stopWords.contains w)

/-- Number of occurrences of a word in a token list. -/
def countWord (ws : List String) (w : String) : Nat := (ws.filter (· == w)).length

/-- The term-frequency vector built by `ToolSelector.build_index` and by
`search` for the query: each distinct word maps to its count divided by the
total number of tokens (a Python dict; modelled as a duplicate-free
association list, and only consulted through lookup). -/
def wordFreq (ws : List String) : List (String × ℚ) :=
  ws.dedup.map (fun w => (w, (countWord ws w : ℚ) / (ws.length : ℚ)))

/-- State of a `ToolSelector` after `build_index`. -/
structure SelectorState where
  top_k : Nat
  tools : List ToolInfo
  word_freq : List (String × List (String × ℚ))

/-- `ToolSelector.build_index`. -/
def buildIndex (top_k : Nat) (tools : List ToolInfo) : SelectorState :=
  { top_k := top_k, tools := tools,
    word_freq := tools.map (fun t =>
      (t.name, wordFreq (tokenize (pyLower (t.name ++ " " ++ t.description))))) }

/-- The name-match bonus of `ToolSelector.search`: +0.3 when the lowercased
query is a substring of the lowercased original tool name, else +0.1 when
any query token occurs in it, else 0. -/
def nameMatchBonus (query : String) (queryWords : List String) (t : ToolInfo) : ℚ :=
  if pyContains (pyLower query) (pyLower t.original_name) then 3 / 10
  else if queryWords.any (fun w => pyContains w (pyLower t.original_name)) then 1 / 10
  else 0

/-- The final score `search` assigns to one tool: cosine similarity of the
query and tool term-frequency vectors plus the name-match bonus.  The cosine
similarity itself is floating-point arithmetic (`math.sqrt`); it is taken
here as an arbitrary similarity function `sim`, and every ranking property
below is proved for all choices of `sim`. -/
def finalScore (sim : List (String × ℚ) → List (String × ℚ) → ℚ)
    (st : SelectorState) (query : String) (t : ToolInfo) : ℚ :=
  sim (wordFreq (tokenize (pyLower query))) ((st.word_freq.lookup t.name).getD []) +
    nameMatchBonus query (tokenize (pyLower query)) t

/-- The scored tool list of `ToolSelector.search` after the
`sort(reverse=True)` call.  Python's sort is stable and its `reverse=True`
variant keeps equal-scoring entries in their original (catalog) order, which
is exactly `mergeSort` with the descending comparison. -/
def searchRanked (sim : List (String × ℚ) → List (String × ℚ) → ℚ)
    (st : SelectorState) (query : String) : List (ℚ × ToolInfo) :=
  (st.tools.map (fun t => (finalScore sim st query t, t))).mergeSort
    (fun a b => decide (b.1 ≤ a.1))

/-- `ToolSelector.search`: empty catalog yields `[]`; a query with no tokens
yields the first `top_k` tools in registration order; otherwise the tools of
the `top_k` best-scoring entries. -/
def search (sim : List (String × ℚ) → List (String × ℚ) → ℚ)
    (st : SelectorState) (query : String) : List ToolInfo :=
  if st.tools.isEmpty then []
  else if (tokenize (pyLower query)).isEmpty then st.tools.take st.top_k
  else ((searchRanked sim st query).take st.top_k).map Prod.snd

theorem rankedLe_trans :
    ∀ a b c : ℚ × ToolInfo, decide (b.1 ≤ a.1) = true → decide (c.1 ≤ b.1) = true →
      decide (c.1 ≤ a.1) = true := by
  intro a b c hab hbc
  simp only [decide_eq_true_eq] at *
  exact le_trans hbc hab

theorem rankedLe_total :
    ∀ a b : ℚ × ToolInfo, (decide (b.1 ≤ a.1) || decide (a.1 ≤ b.1)) = true := by
  intro a b
  simp only [Bool.or_eq_true, decide_eq_true_eq]
  exact le_total b.1 a.1

theorem mem_searchRanked_score {sim : List (String × ℚ) → List (String × ℚ) → ℚ}
    {st : SelectorState} {query : String} {x : ℚ × ToolInfo}
    (hx : x ∈ searchRanked sim st query) : x.1 = finalScore sim st query x.2 := by
  unfold searchRanked at hx
  rw [List.mem_mergeSort, List.mem_map] at hx
  obtain ⟨t, _, ht⟩ := hx
  rw [← ht]

/-! ## Claim C4 -/

/-- C4: for every indexed catalog and every query, the lexical `search`
(1) returns at most `top_k` entries; (2) when the query has tokens, the
returned entries are ordered by non-increasing final score (similarity plus
the +0.3 / +0.1 name-match bonus); (3) when the query has tokens and the
catalog is non-empty, the result is the `top_k`-prefix of the stably sorted
catalog, and any two equal-scoring tools appearing in catalog order stay in
that order in the sorted list (ties retain registration order); (4) a query
tokenizing to nothing yields the first `top_k` catalog entries in
registration order without scoring. -/
theorem selector_search_spec (sim : List (String × ℚ) → List (String × ℚ) → ℚ)
    (st : SelectorState) (query : String) :
    (search sim st query).length ≤ st.top_k ∧
    (tokenize (pyLower query) ≠ [] →
      List.Chain' (fun a b =>
        finalScore sim st query b ≤ finalScore sim st query a) (search sim st query)) ∧
    ((tokenize (pyLower query) ≠ [] ∧ st.tools ≠ []) →
      search sim st query = ((searchRanked sim st query).map Prod.snd).take st.top_k) ∧
    (∀ a b : ToolInfo, [a, b].Sublist st.tools →
      finalScore sim st query a = finalScore sim st query b →
      [a, b].Sublist ((searchRanked sim st query).map Prod.snd)) ∧
    ((tokenize (pyLower query) = [] ∧ st.tools ≠ []) →
      search sim st query = st.tools.take st.top_k) := by
  have hsorted : List.Pairwise (fun a b : ℚ × ToolInfo => decide (b.1 ≤ a.1) = true)
      (searchRanked sim st query) :=
    List.sorted_mergeSort rankedLe_trans rankedLe_total
      (st.tools.map (fun t => (finalScore sim st query t, t)))
  refine ⟨?_, ?_, ?_, ?_, ?_⟩
  · unfold search
    split
    · simp
    · split
      · exact List.length_take_le st.top_k st.tools
      · rw [List.length_map]
        exact List.length_take_le st.top_k _
  · intro htok
    unfold search
    split
    · simp
    · rw [if_neg (by simpa [List.isEmpty_iff] using htok)]
      have htake : List.Pairwise (fun a b : ℚ × ToolInfo => decide (b.1 ≤ a.1) = true)
          ((searchRanked sim st query).take st.top_k) :=
        List.Pairwise.sublist (List.take_sublist _ _) hsorted
      refine List.Pairwise.chain' ?_
      rw [List.pairwise_map]
      refine htake.imp_of_mem ?_
      intro a b ha hb hr
      have ha' := mem_searchRanked_score ((List.take_sublist _ _).subset ha)
      have hb' := mem_searchRanked_score ((List.take_sublist _ _).subset hb)
      rw [decide_eq_true_eq] at hr
      rw [← ha', ← hb']
      exact hr
  · rintro ⟨htok, htools⟩
    unfold search
    rw [if_neg (by simpa [List.isEmpty_iff] using htools),
      if_neg (by simpa [List.isEmpty_iff] using htok)]
    exact List.map_take _ _ _
  · intro a b hab heq
    have h1 : [(finalScore sim st query a, a), (finalScore sim st query b, b)].Sublist
        (st.tools.map (fun t => (finalScore sim st query t, t))) := by
      simpa using hab.map (fun t => (finalScore sim st query t, t))
    have h2 := List.pair_sublist_mergeSort rankedLe_trans rankedLe_total
      (by simp [heq]) h1
    simpa using h2.map Prod.snd
  · rintro ⟨htok, htools⟩
    unfold search
    rw [if_neg (by simpa [List.isEmpty_iff] using htools),
      if_pos (by simpa [List.isEmpty_iff] using htok)]

def simW4 : List (String × ℚ) → List (String × ℚ) → ℚ := fun _ _ => 0

def toolW4a : ToolInfo := ⟨"srv:lights_on", "lights_on", "srv", "turn on the lights", ""⟩

def toolW4b : ToolInfo := ⟨"srv:weather", "weather", "srv", "query the weather", ""⟩

def stW4 : SelectorState := buildIndex 2 [toolW4a, toolW4b]

theorem selector_search_spec_witness :
    (search simW4 stW4 "lights").length ≤ stW4.top_k ∧
    List.Chain' (fun a b =>
      finalScore simW4 stW4 "lights" b ≤ finalScore simW4 stW4 "lights" a)
      (search simW4 stW4 "lights") ∧
    search simW4 stW4 "the" = stW4.tools.take stW4.top_k :=
  ⟨(selector_search_spec simW4 stW4 "lights").1,
   (selector_search_spec simW4 stW4 "lights").2.1 (by decide),
   (selector_search_spec simW4 stW4 "the").2.2.2.2 ⟨by decide, by decide⟩⟩

/-! ## VectorToolSelector (`llm_mcp_host/vector_tool_selector.py`)

The embedding collaborator is modelled by an `EmbedOutcome`: either a parsed
embedding from a well-formed 200 response, or one of the failure modes the
code catches (non-200 status, missing/empty `data` field, timeout, request
error, any other exception), each of which makes `_get_embedding` return the
all-zero vector. -/

inductive EmbedOutcome where
  | ok (v : List ℚ)
  | httpError (code : Nat)
  | malformed
  | timeout
  | requestError
  | otherError
deriving Repr, DecidableEq

/-- Whether the outcome is one of the caught failure modes. -/
def isFailure : EmbedOutcome → Bool
  | .ok _ => false
  | _ => true

/-- State of a `VectorToolSelector` after `build_index` (which also runs the
base-class `build_index`, so `base` holds the same tools and the lexical
word-frequency index). -/
structure VectorSelectorState where
  base : SelectorState
  embedding_dimensions : Nat
  tool_vectors : List (String × List ℚ)
  query_vector_cache : List (String × List ℚ)

/-- `np.zeros(dims)`. -/
def zeroVec (n : Nat) : List ℚ := List.replicate n 0

/-- `np.all(v == 0)`. -/
def isZeroVec (v : List ℚ) : Bool := v.all (fun x => x == 0)

/-- `VectorToolSelector._get_embedding`: empty text yields the zero vector;
otherwise a cache hit (keyed by the first 200 characters) is returned as is;
otherwise a successful response is normalized (the float normalization is
abstracted as `normalize`) and every failure mode yields the zero vector.
The cache write performed on success only affects later calls and is not
consulted by any claim. -/
def getEmbedding (normalize : List ℚ → List ℚ) (vst : VectorSelectorState)
    (text : String) (useCache : Bool) (outcome : EmbedOutcome) : List ℚ :=
  if text = "" then zeroVec vst.embedding_dimensions
  else
    match (if useCache then vst.query_vector_cache.lookup (pyTake text 200) else none) with
    | some v => v
    | none =>
      match outcome with
      | .ok v => normalize v
      | _ => zeroVec vst.embedding_dimensions

/-- The semantic score of `VectorToolSelector.search` for one tool: cosine
similarity of query and tool vectors (float arithmetic abstracted as
`vecSim`; a missing or all-zero tool vector scores 0) plus the name-match
bonus, which here splits the lowercased query on whitespace (not through the
tokenizer). -/
def vectorScore (vecSim : List ℚ → List ℚ → ℚ) (vst : VectorSelectorState)
    (qv : List ℚ) (query : String) (t : ToolInfo) : ℚ :=
  (match vst.tool_vectors.lookup t.name with
   | some tv => if isZeroVec tv then 0 else vecSim qv tv
   | none => 0) +
  (if pyContains (pyLower query) (pyLower t.original_name) then 3 / 10
   else if (pySplitWs (pyLower query)).any
       (fun w => pyContains w (pyLower t.original_name)) then 1 / 10
   else 0)

/-- `VectorToolSelector.search`: with no tools or no tool vectors, or with an
all-zero query embedding, fall back to the base-class lexical `search`;
otherwise rank by `vectorScore` with the same stable descending sort and
truncation. -/
def vectorSearch (sim : List (String × ℚ) → List (String × ℚ) → ℚ)
    (vecSim : List ℚ → List ℚ → ℚ) (normalize : List ℚ → List ℚ)
    (vst : VectorSelectorState) (outcome : EmbedOutcome) (query : String) :
    List ToolInfo :=
  if vst.base.tools.isEmpty || vst.tool_vectors.isEmpty then search sim vst.base query
  else if isZeroVec (getEmbedding normalize vst query true outcome) then
    search sim vst.base query
  else
    (((vst.base.tools.map (fun t =>
        (vectorScore vecSim vst (getEmbedding normalize vst query true outcome) query t, t))).mergeSort
      (fun a b => decide (b.1 ≤ a.1))).take vst.base.top_k).map Prod.snd

/-! ## Claim C5 -/

/-- C5: whenever `_get_embedding` comes back all-zero, the semantic `search`
returns exactly the lexical base-class `search` on the same query and index;
and the embedding result is all-zero in every failure mode — empty input,
non-200 response, malformed body, timeout, request error, other errors —
whenever the per-query cache does not short-circuit the request. -/
theorem vector_search_fallback (sim : List (String × ℚ) → List (String × ℚ) → ℚ)
    (vecSim : List ℚ → List ℚ → ℚ) (normalize : List ℚ → List ℚ)
    (vst : VectorSelectorState) (outcome : EmbedOutcome) (query : String) :
    (isZeroVec (getEmbedding normalize vst query true outcome) = true →
      vectorSearch sim vecSim normalize vst outcome query = search sim vst.base query) ∧
    (query = "" →
      getEmbedding normalize vst query true outcome = zeroVec vst.embedding_dimensions) ∧
    (vst.query_vector_cache.lookup (pyTake query 200) = none → isFailure outcome = true →
      getEmbedding normalize vst query true outcome = zeroVec vst.embedding_dimensions) ∧
    isZeroVec (zeroVec vst.embedding_dimensions) = true := by
  refine ⟨?_, ?_, ?_, ?_⟩
  · intro hz
    simp [vectorSearch, hz]
  · intro hq
    unfold getEmbedding
    rw [if_pos hq]
  · intro hcache hfail
    unfold getEmbedding
    split
    · rfl
    · rw [if_pos rfl, hcache]
      cases outcome with
      | ok v => simp [isFailure] at hfail
      | httpError code => rfl
      | malformed => rfl
      | timeout => rfl
      | requestError => rfl
      | otherError => rfl
  · simp [isZeroVec, zeroVec]

def simW5 : List (String × ℚ) → List (String × ℚ) → ℚ := fun _ _ => 0

def vecSimW5 : List ℚ → List ℚ → ℚ := fun _ _ => 0

def normW5 : List ℚ → List ℚ := fun v => v

def vstW5 : VectorSelectorState :=
  { base := buildIndex 3 [⟨"s:ping", "ping", "s", "ping a host", ""⟩],
    embedding_dimensions := 4,
    tool_vectors := [("s:ping", [1, 0, 0, 0])],
    query_vector_cache := [] }

theorem vector_search_fallback_witness :
    vectorSearch simW5 vecSimW5 normW5 vstW5 EmbedOutcome.timeout "hi" =
      search simW5 vstW5.base "hi" :=
  (vector_search_fallback simW5 vecSimW5 normW5 vstW5 EmbedOutcome.timeout "hi").1
    (by decide)

/-! ## MCPServerManager (`llm_mcp_host_refactor/mcp_manager.py`)

A raw MCP tool as listed by a server: name, optional description and an
uninterpreted input-schema payload. -/

structure MCPTool where
  name : String
  description : Option String
  inputSchema : String
deriving Repr, DecidableEq

/-- `create_tool_identifier` from `llm_mcp_host_refactor/utils.py`. -/
def createToolIdentifier (server_name tool_name : String) : String :=
  server_name ++ ":" ++ tool_name

/-- `MCPServerManager._resolve_tool_name`: the per-native-name occurrence
counter decides the identifier.  First occurrence of a native name yields
`server:tool` and records the name; any later occurrence yields
`tool_server` and bumps the counter (whose numeric value is read but never
used, exactly as in the code). -/
def resolveToolName (counts : List (String × Nat)) (server_name original_name : String) :
    String × List (String × Nat) :=
  match counts.lookup original_name with
  | some _n =>
    (original_name ++ "_" ++ server_name,
     counts.map (fun p => if p.1 = original_name then (p.1, p.2 + 1) else p))
  | none => (createToolIdentifier server_name original_name, counts ++ [(original_name, 1)])

/-- One step of `MCPServerManager.get_all_tools`: resolve the unique name,
build the `ToolInfo`, extend the dispatch mapping. -/
def registerTool (acc : List ToolInfo × List (String × Nat) × List (String × String × String))
    (server_name : String) (tool : MCPTool) :
    List ToolInfo × List (String × Nat) × List (String × String × String) :=
  let r := resolveToolName acc.2.1 server_name tool.name
  (acc.1 ++ [{ name := r.1, original_name := tool.name, server_name := server_name,
               description := tool.description.getD "", parameters := tool.inputSchema }],
   r.2,
   acc.2.2 ++ [(r.1, server_name, tool.name)])

/-- `MCPServerManager.get_all_tools` on a fresh manager: iterate the servers
in registration (dict-insertion) order and their tools in listing order,
producing the aggregated catalog, the conflict counters and the
`unique_name -> (server_name, original_name)` dispatch mapping. -/
def getAllTools (servers : List (String × List MCPTool)) :
    List ToolInfo × List (String × Nat) × List (String × String × String) :=
  servers.foldl (fun acc s => s.2.foldl (fun a t => registerTool a s.1 t) acc) ([], [], [])

/-! ## Claim C3 -/

def pingTool : MCPTool := { name := "ping", description := none, inputSchema := "" }

/-- C3: tool-name collision resolution is deterministic, first-seen-wins and
asymmetric: for any providers `A` and `B` both exposing a native tool
`ping`, registering `A` then `B` assigns `A:ping` and `ping_B`, while
registering `B` then `A` assigns `B:ping` and `ping_A`; the earlier entry
keeps its `provider:native_name` identifier. -/
theorem collision_resolution (A B : String) :
    (getAllTools [(A, [pingTool]), (B, [pingTool])]).1.map ToolInfo.name =
      [A ++ ":ping", "ping_" ++ B] ∧
    (getAllTools [(B, [pingTool]), (A, [pingTool])]).1.map ToolInfo.name =
      [B ++ ":ping", "ping_" ++ A] := by
  constructor
  · show [(A ++ ":") ++ "ping", ("ping" ++ "_") ++ B] = [A ++ ":ping", "ping_" ++ B]
    rw [String.append_assoc]
    rfl
  · show [(B ++ ":") ++ "ping", ("ping" ++ "_") ++ A] = [B ++ ":ping", "ping_" ++ A]
    rw [String.append_assoc]
    rfl

/-! ## Claim C7 -/

/-- Dispatch-relevant state of `MCPServerManager`: the connected server
names and the `tool_mapping` dictionary. -/
structure Registry where
  servers : List String
  tool_mapping : List (String × String × String)
deriving Repr, DecidableEq

/-- Outcome of `MCPServerManager.call_tool`: the two `ValueError` failures
raised before any network activity, or the forwarding of the call to the
owning provider's session. -/
inductive CallResult where
  | toolNotFound (tool_name : String)
  | serverNotFound (server_name : String)
  | forwarded (server_name original_name arguments : String)
deriving Repr, DecidableEq

/-- `MCPServerManager.call_tool`: resolve the unique id through
`tool_mapping` (fail with the tool-not-found error if absent), check the
owning server is registered, and only then forward to the session.  The
method never mutates the registry, which the returned state makes explicit. -/
def callTool (reg : Registry) (tool_name : String) (arguments : String) :
    Registry × CallResult :=
  match reg.tool_mapping.lookup tool_name with
  | none => (reg, .toolNotFound tool_name)
  | some so =>
    if reg.servers.contains so.1 then (reg, .forwarded so.1 so.2 arguments)
    else (reg, .serverNotFound so.1)

/-- The network calls performed against provider sessions by one
`call_tool` invocation. -/
def networkCalls : CallResult → List (String × String × String)
  | .forwarded s o a => [(s, o, a)]
  | _ => []

/-- C7: invoking a tool whose unique id is not in the dispatch mapping fails
with the tool-not-found error, performs no network call, and leaves the
registry state unchanged. -/
theorem invoke_unknown_tool (reg : Registry) (tool_name arguments : String)
    (h : reg.tool_mapping.lookup tool_name = none) :
    callTool reg tool_name arguments = (reg, CallResult.toolNotFound tool_name) ∧
    networkCalls (callTool reg tool_name arguments).2 = [] := by
  unfold callTool
  rw [h]
  exact ⟨rfl, rfl⟩

def regW7 : Registry :=
  { servers := ["wol"], tool_mapping := [("wol:wake", "wol", "wake")] }

theorem invoke_unknown_tool_witness :
    callTool regW7 "nonexistent" "\x7b\x7d" =
      (regW7, CallResult.toolNotFound "nonexistent") ∧
    networkCalls (callTool regW7 "nonexistent" "\x7b\x7d").2 = [] :=
  invoke_unknown_tool regW7 "nonexistent" "\x7b\x7d" (by decide)

/-! ## Agent turn processing (`llm_mcp_host/agent.py`)

One typed part of an MCP `CallToolResult.content` list: a text part or any
other part, the latter carrying its Python `str(item)` rendering. -/

inductive ContentPart where
  | text (s : String)
  | other (rendered : String)
deriving Repr, DecidableEq

structure ToolCallResult where
  content : List ContentPart
deriving Repr, DecidableEq

/-- What the result-stringification loop of `_process_llm_turn` appends for
one content part: `item.text` for text parts, `str(item)` otherwise. -/
def renderPart : ContentPart → String
  | .text s => s
  | .other r => r

/-- The result-to-string conversion of `_process_llm_turn`: a falsy content
list (no content at all) yields the literal success marker `"成功"`;
otherwise the parts are folded left-to-right into one string. -/
def stringifyToolResult (r : ToolCallResult) : String :=
  if r.content.isEmpty then "成功"
  else r.content.foldl (fun acc p => acc ++ renderPart p) ""

/-- One tool-call request inside a model response: its id, tool name and raw
argument string. -/
structure ToolCallRequest where
  id : String
  name : String
  arguments : String
deriving Repr, DecidableEq

/-- The body of the per-tool-call loop of `_process_llm_turn`.  `parseArgs`
is the JSON argument parser (`json.loads`; an `error` is the caught
`JSONDecodeError` with its message) and `invokeTool` is
`MCPServerManager.call_tool` together with the provider session (an `error`
is any caught exception with its message).  Every outcome is converted to
content for exactly one tool-role message carrying the request's id. -/
def processToolCall (parseArgs : String → Except String String)
    (invokeTool : String → String → Except String ToolCallResult)
    (tc : ToolCallRequest) : Message :=
  let content :=
    match parseArgs tc.arguments with
    | .error e => "参数解析错误: " ++ e
    | .ok args =>
      match invokeTool tc.name args with
      | .error e => "工具执行错误: " ++ e
      | .ok result => stringifyToolResult result
  { role := "tool", content := some content, tool_call_id := some tc.id }

/-- The list of tool-role reply messages produced by one pass of the loop
over a model response's tool calls, in request order. -/
def toolReplyMessages (parseArgs : String → Except String String)
    (invokeTool : String → String → Except String ToolCallResult)
    (calls : List ToolCallRequest) : List Message :=
  calls.map (processToolCall parseArgs invokeTool)

/-- The store evolution of the loop: each reply is appended through
`ContextManager.add_message` before the next model call happens. -/
def appendToolReplies (cfg : CMConfig) (parseArgs : String → Except String String)
    (invokeTool : String → String → Except String ToolCallResult)
    (st : CMState) (calls : List ToolCallRequest) (now : Int) : CMState :=
  calls.foldl
    (fun s tc => addMessage cfg s (processToolCall parseArgs invokeTool tc) false now) st

/-! ## Claim C6 -/

/-- C6: for every tool-call request of a model response, the loop appends
exactly one tool-role message carrying that request's `tool_call_id` before
the next model call — one reply per request, in request order, through the
store — and failures never drop the reply or escape: a JSON parse failure
and an invocation exception each become an error-description content string
of the same single reply message. -/
theorem tool_call_replies (parseArgs : String → Except String String)
    (invokeTool : String → String → Except String ToolCallResult)
    (calls : List ToolCallRequest) :
    (toolReplyMessages parseArgs invokeTool calls).map Message.tool_call_id =
      calls.map (fun tc => some tc.id) ∧
    (∀ m ∈ toolReplyMessages parseArgs invokeTool calls, m.role = "tool") ∧
    (∀ cfg st now, appendToolReplies cfg parseArgs invokeTool st calls now =
      (toolReplyMessages parseArgs invokeTool calls).foldl
        (fun s m => addMessage cfg s m false now) st) ∧
    (∀ tc e, parseArgs tc.arguments = .error e →
      (processToolCall parseArgs invokeTool tc).content =
        some ("参数解析错误: " ++ e)) ∧
    (∀ tc args e, parseArgs tc.arguments = .ok args →
      invokeTool tc.name args = .error e →
      (processToolCall parseArgs invokeTool tc).content =
        some ("工具执行错误: " ++ e)) := by
  refine ⟨?_, ?_, ?_, ?_, ?_⟩
  · unfold toolReplyMessages
    rw [List.map_map]
    rfl
  · intro m hm
    unfold toolReplyMessages at hm
    rw [List.mem_map] at hm
    obtain ⟨tc, _, ht⟩ := hm
    rw [← ht]
    rfl
  · intro cfg st now
    unfold appendToolReplies toolReplyMessages
    rw [List.foldl_map]
  · intro tc e he
    simp [processToolCall, he]
  · intro tc args e hok he
    simp [processToolCall, hok, he]

def parseW6 : String → Except String String := fun s =>
  if s = "bad" then Except.error "Expecting value" else Except.ok s

def invokeW6 : String → String → Except String ToolCallResult := fun n _ =>
  if n = "boom" then Except.error "no session" else Except.ok ⟨[ContentPart.text "on"]⟩

def callsW6 : List ToolCallRequest :=
  [⟨"call_1", "wol:wake", "ok"⟩, ⟨"call_2", "boom", "ok"⟩, ⟨"call_3", "wol:wake", "bad"⟩]

theorem tool_call_replies_witness :
    (toolReplyMessages parseW6 invokeW6 callsW6).map Message.tool_call_id =
      callsW6.map (fun tc => some tc.id) ∧
    (processToolCall parseW6 invokeW6 ⟨"call_3", "wol:wake", "bad"⟩).content =
      some ("参数解析错误: " ++ "Expecting value") ∧
    (processToolCall parseW6 invokeW6 ⟨"call_2", "boom", "ok"⟩).content =
      some ("工具执行错误: " ++ "no session") :=
  ⟨(tool_call_replies parseW6 invokeW6 callsW6).1,
   (tool_call_replies parseW6 invokeW6 callsW6).2.2.2.1 ⟨"call_3", "wol:wake", "bad"⟩
     "Expecting value" rfl,
   (tool_call_replies parseW6 invokeW6 callsW6).2.2.2.2 ⟨"call_2", "boom", "ok"⟩
     "ok" "no session" rfl rfl⟩

/-! ## Claim C8 -/

/-- C8: the stringification of a tool invocation's result concatenates all
parts in order — text parts contribute their text, non-text parts their
`str` rendering — and a result with no content at all yields the literal
success marker. -/
theorem stringify_tool_result_spec (parts : List ContentPart) :
    stringifyToolResult ⟨parts⟩ =
      (if parts.isEmpty then "成功" else String.join (parts.map renderPart)) ∧
    (∀ s, renderPart (ContentPart.text s) = s) ∧
    (∀ r, renderPart (ContentPart.other r) = r) := by
  refine ⟨?_, fun s => rfl, fun r => rfl⟩
  unfold stringifyToolResult String.join
  rw [List.foldl_map]

/-! ## Claim C9 -/

/-- The agent-level state touched by `MCPVoiceAgent.chat`: the conversation
store and the turn statistics counter. -/
structure AgentState where
  context : CMState
  total_turns : Nat
deriving Repr, DecidableEq

/-- Python falsy-or-blank test `not user_text or not user_text.strip()`. -/
def pyIsBlank (s : String) : Bool := s == "" || pyStrip s == ""

/-- `MCPVoiceAgent.chat`: blank input returns `""` immediately; otherwise
the turn counter is bumped, the user message is appended to the store, and
`_process_llm_turn` (an oracle here, returning the new store, the final
response text and the number of model calls it made) produces the reply. -/
def chat (cfg : CMConfig) (processTurn : CMState → String → CMState × String × Nat)
    (st : AgentState) (user_text : String) (now : Int) :
    AgentState × String × Nat :=
  if pyIsBlank user_text then (st, "", 0)
  else
    let st1 : AgentState := { st with total_turns := st.total_turns + 1 }
    let ctx1 := addMessage cfg st1.context ⟨"user", some user_text, none⟩ false now
    let r := processTurn ctx1 user_text
    ({ st1 with context := r.1 }, r.2.1, r.2.2)

/-- C9: for every input that is empty or consists only of whitespace, `chat`
returns the empty string, leaves the agent state — store contents and turn
counter included — unchanged, and makes no model call. -/
theorem chat_blank_input (cfg : CMConfig) (st : AgentState) (user_text : String)
    (now : Int) (h : user_text = "" ∨ pyStrip user_text = "") :
    ∀ pt : CMState → String → CMState × String × Nat,
      chat cfg pt st user_text now = (st, "", 0) := by
  intro pt
  unfold chat
  rw [if_pos]
  rcases h with h | h <;> simp [pyIsBlank, h]

def cfgW9 : CMConfig :=
  ⟨3, 1800, false, "user", 200,
   "请用中文简洁总结以下对话历史，保留关键信息，总结长度不超过{max_tokens}个token：", none⟩

theorem chat_blank_input_witness :
    chat cfgW9 (fun c _ => (c, "reply", 1)) ⟨⟨[], 0⟩, 0⟩ "  \t " 0 =
      (⟨⟨[], 0⟩, 0⟩, "", 0) :=
  chat_blank_input cfgW9 ⟨⟨[], 0⟩, 0⟩ "  \t " 0
    (Or.inr (by decide)) (fun c _ => (c, "reply", 1))

end Hachimi
